import Mathlib

/-
Shallow embedding of the Milkymist AC'97 controller model
(src/hw/milkymist-ac97.c).

The guest-visible state is the register file `regs` (11 unsigned 32-bit
words, indices `R_AC97_CTRL = 0` .. `R_U_REMAINING = 10`, with index 7
reserved) together with the host audio backend's voice-activity flags
(`AUD_set_active_in` / `AUD_set_active_out` targets).  Register values are
Nat with an explicit `% 2^32` wherever the C u32 arithmetic can wrap.

IRQ pulses (`qemu_irq_pulse`) are modelled as events returned by the
operation that emits them; the four lines are the constructors of `Irq`.

The audio backend's bounded read/write primitive (`AUD_read` /
`AUD_write`) is modelled by an oracle: a list of grant amounts, one per
loop iteration, each clamped to the requested chunk size (the primitive
never moves more than asked); an exhausted list means the backend grants
nothing, which terminates the transfer loop exactly like a 0 return.
-/

namespace MilkymistAC97

/-- The four edge-triggered interrupt lines of the device. -/
inductive Irq where
  | crrequest
  | crreply
  | dmar
  | dmaw
deriving DecidableEq, Repr

/-- Device state: the register file plus the backend voices' activity. -/
structure AC97State where
  regs : Fin 11 → Nat
  activeIn : Bool
  activeOut : Bool

/-- Functional update of one register. -/
def setReg (r : Fin 11 → Nat) (i : Fin 11) (v : Nat) : Fin 11 → Nat :=
  fun j => if j = i then v else r j

@[simp] theorem setReg_same (r : Fin 11 → Nat) (i : Fin 11) (v : Nat) :
    setReg r i v i = v := by
  simp [setReg]

theorem setReg_other (r : Fin 11 → Nat) (i j : Fin 11) (v : Nat) (h : j ≠ i) :
    setReg r i v j = r j := by
  simp [setReg, h]

/-- `update_voices`: recompute both voices' activity from the enable bits
(bit 0, `CTRL_EN`) of `R_D_CTRL` (index 4) and `R_U_CTRL` (index 8). -/
def update_voices (s : AC97State) : AC97State :=
  { s with
    activeOut := decide (s.regs 4 &&& 1 ≠ 0)
    activeIn := decide (s.regs 8 &&& 1 ≠ 0) }

/-- `ac97_read`: decode the byte address (shift right by 2), return the
register value for a defined index, else report an unknown register and
return 0.  The Bool records whether the unknown-register condition was
signalled (`error_report`). -/
def ac97_read (s : AC97State) (addr : Nat) : Nat × Bool :=
  match addr / 4 with
  | 0 => (s.regs 0, false)
  | 1 => (s.regs 1, false)
  | 2 => (s.regs 2, false)
  | 3 => (s.regs 3, false)
  | 4 => (s.regs 4, false)
  | 5 => (s.regs 5, false)
  | 6 => (s.regs 6, false)
  | 8 => (s.regs 8, false)
  | 9 => (s.regs 9, false)
  | 10 => (s.regs 10, false)
  | _ => (0, true)

/-- `ac97_write`: decode the byte address; `R_AC97_CTRL` (index 0) pulses
the command request/reply lines per the written bits and stores the value
with `AC97_CTRL_RQEN` (bit 0) cleared; `R_D_CTRL` (4) and `R_U_CTRL` (8)
store the value and recompute both voices; other defined indices store the
value; an undefined index reports an unknown register and changes nothing.
Returns the new state, the pulses emitted, and whether the
unknown-register condition was signalled. -/
def ac97_write (s : AC97State) (addr value : Nat) : AC97State × List Irq × Bool :=
  let v := value % 2 ^ 32
  match addr / 4 with
  | 0 =>
    let irqs := if v &&& 1 ≠ 0 then
        (if v &&& 2 ≠ 0 then [Irq.crrequest] else [Irq.crreply])
      else []
    ({ s with regs := setReg s.regs 0 (v &&& 0xFFFFFFFE) }, irqs, false)
  | 4 => (update_voices { s with regs := setReg s.regs 4 v }, [], false)
  | 8 => (update_voices { s with regs := setReg s.regs 8 v }, [], false)
  | 1 => ({ s with regs := setReg s.regs 1 v }, [], false)
  | 2 => ({ s with regs := setReg s.regs 2 v }, [], false)
  | 3 => ({ s with regs := setReg s.regs 3 v }, [], false)
  | 5 => ({ s with regs := setReg s.regs 5 v }, [], false)
  | 6 => ({ s with regs := setReg s.regs 6 v }, [], false)
  | 9 => ({ s with regs := setReg s.regs 9 v }, [], false)
  | 10 => ({ s with regs := setReg s.regs 10 v }, [], false)
  | _ => (s, [], true)

/-- The chunked transfer loop shared by `ac97_in_cb` and `ac97_out_cb`:
repeatedly request `min temp 4096` bytes from the backend primitive, stop
on a 0 return, and return the total number of bytes moved.  `rs` is the
oracle of backend grant amounts (clamped to the request, as the bounded
primitive never returns more than asked). -/
def dmaLoop : List Nat → Nat → Nat
  | [], _ => 0
  | r :: rs, temp =>
    if temp = 0 then 0
    else
      let to_copy := min temp 4096
      let got := min r to_copy
      if got = 0 then 0
      else got + dmaLoop rs (temp - got)

/-- `ac97_in_cb` (record channel capacity callback): move up to
`min (U_REMAINING) avail` bytes from the input voice to guest memory,
advance `R_U_ADDR` (9) and decrease `R_U_REMAINING` (10) by the bytes
actually moved, and pulse the DMA-write line when the channel is enabled
and `R_U_REMAINING` has reached zero.  The u32 subtraction cannot wrap:
the loop never moves more than `min remaining avail`. -/
def ac97_in_cb (s : AC97State) (avail : Nat) (rs : List Nat) : AC97State × List Irq :=
  let remaining := s.regs 10
  let temp := min remaining avail
  if temp = 0 then (s, [])
  else
    let transferred := dmaLoop rs temp
    let s' := { s with
      regs := setReg (setReg s.regs 9 ((s.regs 9 + transferred) % 2 ^ 32)) 10
        (remaining - transferred) }
    (s', if s'.regs 8 &&& 1 ≠ 0 ∧ s'.regs 10 = 0 then [Irq.dmaw] else [])

/-- `ac97_out_cb` (playback channel capacity callback): move up to
`min (D_REMAINING) free` bytes from guest memory to the output voice,
advance `R_D_ADDR` (5) and decrease `R_D_REMAINING` (6) by the bytes
actually moved, and pulse the DMA-read line when the channel is enabled
and `R_D_REMAINING` has reached zero. -/
def ac97_out_cb (s : AC97State) (free : Nat) (rs : List Nat) : AC97State × List Irq :=
  let remaining := s.regs 6
  let temp := min remaining free
  if temp = 0 then (s, [])
  else
    let transferred := dmaLoop rs temp
    let s' := { s with
      regs := setReg (setReg s.regs 5 ((s.regs 5 + transferred) % 2 ^ 32)) 6
        (remaining - transferred) }
    (s', if s'.regs 4 &&& 1 ≠ 0 ∧ s'.regs 6 = 0 then [Irq.dmar] else [])

/-- `milkymist_ac97_reset`: zero every register and deactivate both
voices. -/
def milkymist_ac97_reset (_s : AC97State) : AC97State :=
  { regs := fun _ => 0, activeIn := false, activeOut := false }

/-- `ac97_post_load`: after restoring the register array from persisted
state, recompute the voices' activity; registers are untouched. -/
def ac97_post_load (s : AC97State) : AC97State :=
  update_voices s

/-- Bytes actually moved by one capacity callback on the record channel. -/
def movedIn (s : AC97State) (avail : Nat) (rs : List Nat) : Nat :=
  dmaLoop rs (min (s.regs 10) avail)

/-- Bytes actually moved by one capacity callback on the playback
channel. -/
def movedOut (s : AC97State) (free : Nat) (rs : List Nat) : Nat :=
  dmaLoop rs (min (s.regs 6) free)

/-- A sequence of record-channel capacity callbacks; each call is an
available-byte count paired with its backend oracle. -/
def runInCbs : AC97State → List (Nat × List Nat) → AC97State
  | s, [] => s
  | s, c :: cs => runInCbs (ac97_in_cb s c.1 c.2).1 cs

/-- A sequence of playback-channel capacity callbacks. -/
def runOutCbs : AC97State → List (Nat × List Nat) → AC97State
  | s, [] => s
  | s, c :: cs => runOutCbs (ac97_out_cb s c.1 c.2).1 cs

/-- Total bytes moved across a sequence of record-channel callbacks. -/
def totalMovedIn : AC97State → List (Nat × List Nat) → Nat
  | _, [] => 0
  | s, c :: cs => movedIn s c.1 c.2 + totalMovedIn (ac97_in_cb s c.1 c.2).1 cs

/-- Total bytes moved across a sequence of playback-channel callbacks. -/
def totalMovedOut : AC97State → List (Nat × List Nat) → Nat
  | _, [] => 0
  | s, c :: cs => movedOut s c.1 c.2 + totalMovedOut (ac97_out_cb s c.1 c.2).1 cs

/-- A concrete all-zero state, as produced by reset. -/
def s0 : AC97State :=
  { regs := fun _ => 0, activeIn := false, activeOut := false }

theorem dmaLoop_le (rs : List Nat) (temp : Nat) : dmaLoop rs temp ≤ temp := by
  induction rs generalizing temp with
  | nil => simp [dmaLoop]
  | cons r rs ih =>
    simp only [dmaLoop]
    split
    · omega
    · split
      · omega
      · have h1 := ih (temp - min r (min temp 4096))
        omega

theorem dmaLoop_zero (rs : List Nat) : dmaLoop rs 0 = 0 := by
  cases rs <;> simp [dmaLoop]

theorem and_two_pow_ne_zero_iff (x i : Nat) :
    x &&& 2 ^ i ≠ 0 ↔ x.testBit i = true := by
  rw [Nat.and_two_pow]
  cases h : x.testBit i <;> simp [h]

theorem and_one_ne_zero_iff (x : Nat) : x &&& 1 ≠ 0 ↔ x.testBit 0 = true := by
  have h := and_two_pow_ne_zero_iff x 0
  rw [pow_zero] at h
  exact h

theorem and_two_ne_zero_iff (x : Nat) : x &&& 2 ≠ 0 ↔ x.testBit 1 = true := by
  have h := and_two_pow_ne_zero_iff x 1
  simpa using h

theorem in_cb_state (s : AC97State) (avail : Nat) (rs : List Nat)
    (h9 : s.regs 9 < 2 ^ 32) :
    (ac97_in_cb s avail rs).1.regs 10 = s.regs 10 - movedIn s avail rs ∧
    (ac97_in_cb s avail rs).1.regs 9 = (s.regs 9 + movedIn s avail rs) % 2 ^ 32 ∧
    (∀ i : Fin 11, i ≠ 9 → i ≠ 10 → (ac97_in_cb s avail rs).1.regs i = s.regs i) ∧
    (ac97_in_cb s avail rs).1.activeIn = s.activeIn ∧
    (ac97_in_cb s avail rs).1.activeOut = s.activeOut := by
  by_cases ht : min (s.regs 10) avail = 0
  · refine ⟨?_, ?_, fun i h1 h2 => ?_, ?_, ?_⟩
    · simp [ac97_in_cb, movedIn, ht, dmaLoop_zero]
    · simp [ac97_in_cb, movedIn, ht, dmaLoop_zero]
      omega
    · simp [ac97_in_cb, ht]
    · simp [ac97_in_cb, ht]
    · simp [ac97_in_cb, ht]
  · have ht' : ¬(s.regs 10 = 0 ∨ avail = 0) := fun h => ht (Nat.min_eq_zero_iff.mpr h)
    refine ⟨?_, ?_, fun i h1 h2 => ?_, ?_, ?_⟩
    · simp [ac97_in_cb, movedIn, ht', setReg]
    · simp [ac97_in_cb, movedIn, ht', setReg]
    · simp [ac97_in_cb, ht', setReg, h1, h2]
    · simp [ac97_in_cb, ht']
    · simp [ac97_in_cb, ht']

theorem out_cb_state (s : AC97State) (free : Nat) (rs : List Nat)
    (h5 : s.regs 5 < 2 ^ 32) :
    (ac97_out_cb s free rs).1.regs 6 = s.regs 6 - movedOut s free rs ∧
    (ac97_out_cb s free rs).1.regs 5 = (s.regs 5 + movedOut s free rs) % 2 ^ 32 ∧
    (∀ i : Fin 11, i ≠ 5 → i ≠ 6 → (ac97_out_cb s free rs).1.regs i = s.regs i) ∧
    (ac97_out_cb s free rs).1.activeIn = s.activeIn ∧
    (ac97_out_cb s free rs).1.activeOut = s.activeOut := by
  by_cases ht : min (s.regs 6) free = 0
  · refine ⟨?_, ?_, fun i h1 h2 => ?_, ?_, ?_⟩
    · simp [ac97_out_cb, movedOut, ht, dmaLoop_zero]
    · simp [ac97_out_cb, movedOut, ht, dmaLoop_zero]
      omega
    · simp [ac97_out_cb, ht]
    · simp [ac97_out_cb, ht]
    · simp [ac97_out_cb, ht]
  · have ht' : ¬(s.regs 6 = 0 ∨ free = 0) := fun h => ht (Nat.min_eq_zero_iff.mpr h)
    refine ⟨?_, ?_, fun i h1 h2 => ?_, ?_, ?_⟩
    · simp [ac97_out_cb, movedOut, ht', setReg]
    · simp [ac97_out_cb, movedOut, ht', setReg]
    · simp [ac97_out_cb, ht', setReg, h1, h2]
    · simp [ac97_out_cb, ht']
    · simp [ac97_out_cb, ht']

theorem in_cb_irq (s : AC97State) (avail : Nat) (rs : List Nat) :
    (ac97_in_cb s avail rs).2 =
      if s.regs 8 &&& 1 ≠ 0 ∧ s.regs 10 ≠ 0 ∧ (ac97_in_cb s avail rs).1.regs 10 = 0
      then [Irq.dmaw] else [] := by
  by_cases ht : min (s.regs 10) avail = 0
  · have hz : s.regs 10 = 0 ∨ s.regs 10 ≠ 0 := em _
    simp only [ac97_in_cb, ht, if_pos]
    rcases hz with hz | hz <;> simp [hz]
  · have hrem : s.regs 10 ≠ 0 := by
      intro h; rw [h] at ht; simp at ht
    simp only [ac97_in_cb, if_neg ht]
    simp [setReg, hrem]

theorem out_cb_irq (s : AC97State) (free : Nat) (rs : List Nat) :
    (ac97_out_cb s free rs).2 =
      if s.regs 4 &&& 1 ≠ 0 ∧ s.regs 6 ≠ 0 ∧ (ac97_out_cb s free rs).1.regs 6 = 0
      then [Irq.dmar] else [] := by
  by_cases ht : min (s.regs 6) free = 0
  · have hz : s.regs 6 = 0 ∨ s.regs 6 ≠ 0 := em _
    simp only [ac97_out_cb, ht, if_pos]
    rcases hz with hz | hz <;> simp [hz]
  · have hrem : s.regs 6 ≠ 0 := by
      intro h; rw [h] at ht; simp at ht
    simp only [ac97_out_cb, if_neg ht]
    simp [setReg, hrem]

theorem runIn_state (calls : List (Nat × List Nat)) (s : AC97State)
    (h9 : s.regs 9 < 2 ^ 32) :
    totalMovedIn s calls ≤ s.regs 10 ∧
    (runInCbs s calls).regs 10 = s.regs 10 - totalMovedIn s calls ∧
    (runInCbs s calls).regs 9 = (s.regs 9 + totalMovedIn s calls) % 2 ^ 32 ∧
    (∀ i : Fin 11, i ≠ 9 → i ≠ 10 → (runInCbs s calls).regs i = s.regs i) := by
  induction calls generalizing s with
  | nil =>
    refine ⟨Nat.zero_le _, ?_, ?_, fun i _ _ => rfl⟩
    · simp [runInCbs, totalMovedIn]
    · simp [runInCbs, totalMovedIn]
      omega
  | cons c cs ih =>
    obtain ⟨e10, e9, eo, -, -⟩ := in_cb_state s c.1 c.2 h9
    have hm : movedIn s c.1 c.2 ≤ s.regs 10 :=
      le_trans (dmaLoop_le _ _) (Nat.min_le_left _ _)
    have h9' : (ac97_in_cb s c.1 c.2).1.regs 9 < 2 ^ 32 := by
      rw [e9]; exact Nat.mod_lt _ (by norm_num)
    obtain ⟨ihle, ih10, ih9, iho⟩ := ih (ac97_in_cb s c.1 c.2).1 h9'
    rw [e10] at ihle
    refine ⟨?_, ?_, ?_, ?_⟩
    · simp only [totalMovedIn]
      omega
    · simp only [runInCbs, totalMovedIn]
      rw [ih10, e10]
      omega
    · simp only [runInCbs, totalMovedIn]
      rw [ih9, e9, Nat.mod_add_mod, Nat.add_assoc]
    · intro i hi9 hi10
      simp only [runInCbs]
      rw [iho i hi9 hi10, eo i hi9 hi10]

theorem runOut_state (calls : List (Nat × List Nat)) (s : AC97State)
    (h5 : s.regs 5 < 2 ^ 32) :
    totalMovedOut s calls ≤ s.regs 6 ∧
    (runOutCbs s calls).regs 6 = s.regs 6 - totalMovedOut s calls ∧
    (runOutCbs s calls).regs 5 = (s.regs 5 + totalMovedOut s calls) % 2 ^ 32 ∧
    (∀ i : Fin 11, i ≠ 5 → i ≠ 6 → (runOutCbs s calls).regs i = s.regs i) := by
  induction calls generalizing s with
  | nil =>
    refine ⟨Nat.zero_le _, ?_, ?_, fun i _ _ => rfl⟩
    · simp [runOutCbs, totalMovedOut]
    · simp [runOutCbs, totalMovedOut]
      omega
  | cons c cs ih =>
    obtain ⟨e6, e5, eo, -, -⟩ := out_cb_state s c.1 c.2 h5
    have hm : movedOut s c.1 c.2 ≤ s.regs 6 :=
      le_trans (dmaLoop_le _ _) (Nat.min_le_left _ _)
    have h5' : (ac97_out_cb s c.1 c.2).1.regs 5 < 2 ^ 32 := by
      rw [e5]; exact Nat.mod_lt _ (by norm_num)
    obtain ⟨ihle, ih6, ih5, iho⟩ := ih (ac97_out_cb s c.1 c.2).1 h5'
    rw [e6] at ihle
    refine ⟨?_, ?_, ?_, ?_⟩
    · simp only [totalMovedOut]
      omega
    · simp only [runOutCbs, totalMovedOut]
      rw [ih6, e6]
      omega
    · simp only [runOutCbs, totalMovedOut]
      rw [ih5, e5, Nat.mod_add_mod, Nat.add_assoc]
    · intro i hi5 hi6
      simp only [runOutCbs]
      rw [iho i hi5 hi6, eo i hi5 hi6]

theorem in_cb_ctrl_unchanged (s : AC97State) (avail : Nat) (rs : List Nat) :
    (ac97_in_cb s avail rs).1.regs 8 = s.regs 8 := by
  by_cases ht : min (s.regs 10) avail = 0
  · simp [ac97_in_cb, ht]
  · have ht' : ¬(s.regs 10 = 0 ∨ avail = 0) := fun h => ht (Nat.min_eq_zero_iff.mpr h)
    simp [ac97_in_cb, ht', setReg]

theorem out_cb_ctrl_unchanged (s : AC97State) (free : Nat) (rs : List Nat) :
    (ac97_out_cb s free rs).1.regs 4 = s.regs 4 := by
  by_cases ht : min (s.regs 6) free = 0
  · simp [ac97_out_cb, ht]
  · have ht' : ¬(s.regs 6 = 0 ∨ free = 0) := fun h => ht (Nat.min_eq_zero_iff.mpr h)
    simp [ac97_out_cb, ht', setReg]

theorem decide_and_one (x : Nat) : decide (x &&& 1 ≠ 0) = x.testBit 0 := by
  cases hb : x.testBit 0
  · simp only [Nat.testBit_to_div_mod, pow_zero, Nat.div_one,
      decide_eq_false_iff_not] at hb
    simp
    omega
  · simp only [Nat.testBit_to_div_mod, pow_zero, Nat.div_one,
      decide_eq_true_eq] at hb
    simp
    omega

/-- C2: a capacity callback pulses a channel's completion line exactly
once, and only when the channel's enable bit (which the callback leaves
unchanged, as the last two conjuncts record) is set and REMAINING equals
exactly zero after the callback's update; a callback on a channel whose
REMAINING is already zero pulses nothing.  Record depletion pulses the
DMA-write line, playback depletion the DMA-read line. -/
theorem C2_completion_pulse (s : AC97State) (avail : Nat) (rs : List Nat) :
    ((ac97_in_cb s avail rs).2 =
      if s.regs 8 &&& 1 ≠ 0 ∧ s.regs 10 ≠ 0 ∧ (ac97_in_cb s avail rs).1.regs 10 = 0
      then [Irq.dmaw] else []) ∧
    ((ac97_out_cb s avail rs).2 =
      if s.regs 4 &&& 1 ≠ 0 ∧ s.regs 6 ≠ 0 ∧ (ac97_out_cb s avail rs).1.regs 6 = 0
      then [Irq.dmar] else []) ∧
    (ac97_in_cb s avail rs).1.regs 8 = s.regs 8 ∧
    (ac97_out_cb s avail rs).1.regs 4 = s.regs 4 :=
  ⟨in_cb_irq s avail rs, out_cb_irq s avail rs,
    in_cb_ctrl_unchanged s avail rs, out_cb_ctrl_unchanged s avail rs⟩

/-- C3: for every value written to AC97_CTRL (byte address 0), a
subsequent read of that register returns the written value with the
request-enable bit (bit 0) cleared, whether or not that bit was set. -/
theorem C3_self_clearing_rqen (s : AC97State) (value : Nat)
    (hv : value < 2 ^ 32) :
    (ac97_read (ac97_write s 0 value).1 0).1 = value &&& 0xFFFFFFFE := by
  have hv' : value % 4294967296 = value := Nat.mod_eq_of_lt hv
  simp [ac97_write, ac97_read, setReg, hv']

theorem C3_self_clearing_rqen_witness :
    3 < 2 ^ 32 ∧ (ac97_read (ac97_write s0 0 3).1 0).1 = 3 &&& 0xFFFFFFFE :=
  ⟨by decide, C3_self_clearing_rqen s0 3 (by decide)⟩

/-- C4: writing AC97_CTRL with request-enable (bit 0) set pulses exactly
one line, chosen by the direction bit (bit 1): clear pulses the
command-reply line, set pulses the command-request line; with
request-enable clear, no line is pulsed.  The pulses are the ones emitted
by the write itself. -/
theorem C4_command_write_pulses (s : AC97State) (value : Nat)
    (hv : value < 2 ^ 32) :
    (value.testBit 0 = true → value.testBit 1 = false →
      (ac97_write s 0 value).2.1 = [Irq.crreply]) ∧
    (value.testBit 0 = true → value.testBit 1 = true →
      (ac97_write s 0 value).2.1 = [Irq.crrequest]) ∧
    (value.testBit 0 = false → (ac97_write s 0 value).2.1 = []) := by
  have hv' : value % 4294967296 = value := Nat.mod_eq_of_lt hv
  have e0 : value % 2 = 1 ↔ value.testBit 0 = true := by
    simp [Nat.testBit_to_div_mod]
  have e1 : value / 2 % 2 = 1 ↔ value.testBit 1 = true := by
    simp [Nat.testBit_to_div_mod]
  refine ⟨fun h1 h2 => ?_, fun h1 h2 => ?_, fun h1 => ?_⟩
  · simp [ac97_write, hv', and_two_ne_zero_iff, e0, e1, h1, h2]
  · simp [ac97_write, hv', and_two_ne_zero_iff, e0, e1, h1, h2]
  · simp [ac97_write, hv', and_two_ne_zero_iff, e0, e1, h1]

theorem C4_command_write_pulses_witness :
    ((ac97_write s0 0 1).2.1 = [Irq.crreply]) ∧
    ((ac97_write s0 0 3).2.1 = [Irq.crrequest]) ∧
    ((ac97_write s0 0 2).2.1 = []) :=
  ⟨(C4_command_write_pulses s0 1 (by decide)).1 (by decide) (by decide),
   (C4_command_write_pulses s0 3 (by decide)).2.1 (by decide) (by decide),
   (C4_command_write_pulses s0 2 (by decide)).2.2 (by decide)⟩

/-- C5: a capacity callback whose effective capacity
`min REMAINING available_or_free` is zero moves no bytes, leaves the state
(registers and voice activity) unchanged, and pulses no interrupt. -/
theorem C5_zero_capacity (s : AC97State) (avail : Nat) (rs : List Nat) :
    (min (s.regs 10) avail = 0 →
      ac97_in_cb s avail rs = (s, []) ∧ movedIn s avail rs = 0) ∧
    (min (s.regs 6) avail = 0 →
      ac97_out_cb s avail rs = (s, []) ∧ movedOut s avail rs = 0) := by
  constructor <;> intro h
  · exact ⟨by simp [ac97_in_cb, h], by simp [movedIn, h, dmaLoop_zero]⟩
  · exact ⟨by simp [ac97_out_cb, h], by simp [movedOut, h, dmaLoop_zero]⟩

theorem C5_zero_capacity_witness :
    (ac97_in_cb s0 0 [4] = (s0, []) ∧ movedIn s0 0 [4] = 0) ∧
    (ac97_out_cb s0 5 [4] = (s0, []) ∧ movedOut s0 5 [4] = 0) :=
  ⟨(C5_zero_capacity s0 0 [4]).1 (by decide),
   (C5_zero_capacity s0 5 [4]).2 (by decide)⟩

/-- A concrete state with both channels enabled and transfers pending. -/
def s1 : AC97State :=
  { regs := fun i =>
      if i = 4 then 1 else if i = 8 then 1
      else if i = 5 then 4096 else if i = 6 then 8192
      else if i = 9 then 256 else if i = 10 then 8 else 0,
    activeIn := true, activeOut := true }

/-- A concrete state with both channels disabled but transfers pending. -/
def s2 : AC97State :=
  { regs := fun i =>
      if i = 5 then 4096 else if i = 6 then 8192
      else if i = 9 then 256 else if i = 10 then 8 else 0,
    activeIn := false, activeOut := false }

/-- C1: monotonic DMA progress on an active channel.  Every single
invocation moves at most `min (REMAINING, available)` bytes (so the u32
REMAINING subtraction never wraps below zero), the total moved across any
sequence of invocations never exceeds the initial REMAINING, ADDR advances
(mod 2^32) by exactly the total bytes moved, and REMAINING decreases by
exactly the same total.  Stated for the record channel (registers 9/10)
and the playback channel (registers 5/6). -/
theorem C1_monotonic_dma_progress (s : AC97State)
    (callsU callsD : List (Nat × List Nat))
    (h9 : s.regs 9 < 2 ^ 32) (h5 : s.regs 5 < 2 ^ 32)
    (henU : (s.regs 8).testBit 0 = true) (henD : (s.regs 4).testBit 0 = true) :
    (∀ (t : AC97State) (avail : Nat) (rs : List Nat),
      movedIn t avail rs ≤ min (t.regs 10) avail) ∧
    totalMovedIn s callsU ≤ s.regs 10 ∧
    (runInCbs s callsU).regs 10 = s.regs 10 - totalMovedIn s callsU ∧
    (runInCbs s callsU).regs 9 = (s.regs 9 + totalMovedIn s callsU) % 2 ^ 32 ∧
    (∀ (t : AC97State) (free : Nat) (rs : List Nat),
      movedOut t free rs ≤ min (t.regs 6) free) ∧
    totalMovedOut s callsD ≤ s.regs 6 ∧
    (runOutCbs s callsD).regs 6 = s.regs 6 - totalMovedOut s callsD ∧
    (runOutCbs s callsD).regs 5 = (s.regs 5 + totalMovedOut s callsD) % 2 ^ 32 := by
  obtain ⟨a1, a2, a3, -⟩ := runIn_state callsU s h9
  obtain ⟨b1, b2, b3, -⟩ := runOut_state callsD s h5
  exact ⟨fun t avail rs => dmaLoop_le _ _, a1, a2, a3,
    fun t free rs => dmaLoop_le _ _, b1, b2, b3⟩

theorem C1_monotonic_dma_progress_witness :
    (s1.regs 8).testBit 0 = true ∧ (s1.regs 4).testBit 0 = true ∧
    totalMovedIn s1 [(4, [4]), (10, [2])] ≤ s1.regs 10 ∧
    (runInCbs s1 [(4, [4]), (10, [2])]).regs 10 =
      s1.regs 10 - totalMovedIn s1 [(4, [4]), (10, [2])] ∧
    (runOutCbs s1 [(4096, [4096]), (4096, [4096])]).regs 6 =
      s1.regs 6 - totalMovedOut s1 [(4096, [4096]), (4096, [4096])] :=
  ⟨by decide, by decide,
    (C1_monotonic_dma_progress s1 [(4, [4]), (10, [2])]
      [(4096, [4096]), (4096, [4096])]
      (by decide) (by decide) (by decide) (by decide)).2.1,
    (C1_monotonic_dma_progress s1 [(4, [4]), (10, [2])]
      [(4096, [4096]), (4096, [4096])]
      (by decide) (by decide) (by decide) (by decide)).2.2.1,
    (C1_monotonic_dma_progress s1 [(4, [4]), (10, [2])]
      [(4096, [4096]), (4096, [4096])]
      (by decide) (by decide) (by decide) (by decide)).2.2.2.2.2.2.1⟩

/-- C6: reading any undefined register index (reserved index 7, or any
index at or beyond the end of the array) signals the unknown-register
condition and returns 0 — a read changes no register, `ac97_read` being a
pure function of the state; writing such an index signals the condition
and leaves the whole state unchanged, pulsing nothing. -/
theorem C6_unknown_register (s : AC97State) (addr value : Nat)
    (h : addr / 4 = 7 ∨ 11 ≤ addr / 4) :
    ac97_read s addr = (0, true) ∧ ac97_write s addr value = (s, [], true) := by
  constructor
  · unfold ac97_read
    split <;> first | rfl | omega
  · unfold ac97_write
    split <;> first | rfl | omega

theorem C6_unknown_register_witness :
    (ac97_read s0 28 = (0, true) ∧ ac97_write s0 28 5 = (s0, [], true)) ∧
    (ac97_read s0 44 = (0, true) ∧ ac97_write s0 44 5 = (s0, [], true)) :=
  ⟨C6_unknown_register s0 28 5 (Or.inl (by decide)),
   C6_unknown_register s0 44 5 (Or.inr (by decide))⟩

/-- C7: a write to D_CTRL (byte address 16) or U_CTRL (byte address 32)
stores the raw written value and then recomputes both voices' activity
from the current enable bits — the written channel's voice from the new
value, the other channel's voice from its unchanged register. -/
theorem C7_channel_ctrl_write (s : AC97State) (value : Nat)
    (hv : value < 2 ^ 32) :
    ((ac97_write s 16 value).1.regs 4 = value ∧
     (ac97_write s 16 value).1.activeOut = value.testBit 0 ∧
     (ac97_write s 16 value).1.activeIn = (s.regs 8).testBit 0) ∧
    ((ac97_write s 32 value).1.regs 8 = value ∧
     (ac97_write s 32 value).1.activeIn = value.testBit 0 ∧
     (ac97_write s 32 value).1.activeOut = (s.regs 4).testBit 0) := by
  have hv' : value % 4294967296 = value := Nat.mod_eq_of_lt hv
  refine ⟨⟨?_, ?_, ?_⟩, ⟨?_, ?_, ?_⟩⟩ <;>
    simp [ac97_write, update_voices, setReg, hv', decide_and_one]

theorem C7_channel_ctrl_write_witness :
    (ac97_write s0 16 1).1.regs 4 = 1 ∧
    (ac97_write s0 16 1).1.activeOut = Nat.testBit 1 0 ∧
    (ac97_write s0 16 1).1.activeIn = (s0.regs 8).testBit 0 :=
  (C7_channel_ctrl_write s0 1 (by decide)).1

/-- C8: restore (`ac97_post_load`) leaves every register exactly equal to
the persisted snapshot and sets each voice's activity purely from the
restored enable bits; in particular D_CTRL enable=1 and U_CTRL enable=0
makes the playback voice active and the record voice inactive. -/
theorem C8_restore_recomputes (s : AC97State) :
    (ac97_post_load s).regs = s.regs ∧
    (ac97_post_load s).activeOut = (s.regs 4).testBit 0 ∧
    (ac97_post_load s).activeIn = (s.regs 8).testBit 0 := by
  refine ⟨rfl, ?_, ?_⟩ <;> simp [ac97_post_load, update_voices, decide_and_one]

/-- C9: reset zeroes every register (all 11 indices), deactivates both
voices, and is idempotent: resetting again yields the identical state. -/
theorem C9_reset_idempotent (s : AC97State) :
    (∀ i : Fin 11, (milkymist_ac97_reset s).regs i = 0) ∧
    (milkymist_ac97_reset s).activeIn = false ∧
    (milkymist_ac97_reset s).activeOut = false ∧
    milkymist_ac97_reset (milkymist_ac97_reset s) = milkymist_ac97_reset s :=
  ⟨fun i => rfl, rfl, rfl, rfl⟩

/-- C10: the enable bit gates only the completion pulse.  With effective
capacity `min REMAINING available > 0` and the enable bit clear, a
capacity callback still performs the transfer and updates ADDR and
REMAINING by the bytes actually moved — by exactly the same formulas as in
the enabled case (`in_cb_state`/`out_cb_state` hold with no enable
hypothesis) — but pulses no interrupt line. -/
theorem C10_transfer_ignores_enable (s : AC97State) (avail : Nat)
    (rs : List Nat)
    (h9 : s.regs 9 < 2 ^ 32) (h5 : s.regs 5 < 2 ^ 32)
    (hU : (s.regs 8).testBit 0 = false) (hD : (s.regs 4).testBit 0 = false)
    (hmU : 0 < min (s.regs 10) avail) (hmD : 0 < min (s.regs 6) avail) :
    ((ac97_in_cb s avail rs).1.regs 10 = s.regs 10 - movedIn s avail rs ∧
     (ac97_in_cb s avail rs).1.regs 9 =
       (s.regs 9 + movedIn s avail rs) % 2 ^ 32 ∧
     (ac97_in_cb s avail rs).2 = []) ∧
    ((ac97_out_cb s avail rs).1.regs 6 = s.regs 6 - movedOut s avail rs ∧
     (ac97_out_cb s avail rs).1.regs 5 =
       (s.regs 5 + movedOut s avail rs) % 2 ^ 32 ∧
     (ac97_out_cb s avail rs).2 = []) := by
  obtain ⟨e10, e9, -, -, -⟩ := in_cb_state s avail rs h9
  obtain ⟨f6, f5, -, -, -⟩ := out_cb_state s avail rs h5
  have hU' : ¬(s.regs 8 % 2 = 1) := by
    simp only [Nat.testBit_to_div_mod, pow_zero, Nat.div_one,
      decide_eq_false_iff_not] at hU
    exact hU
  have hD' : ¬(s.regs 4 % 2 = 1) := by
    simp only [Nat.testBit_to_div_mod, pow_zero, Nat.div_one,
      decide_eq_false_iff_not] at hD
    exact hD
  refine ⟨⟨e10, e9, ?_⟩, ⟨f6, f5, ?_⟩⟩
  · rw [in_cb_irq]
    simp [hU']
  · rw [out_cb_irq]
    simp [hD']

theorem C10_transfer_ignores_enable_witness :
    (ac97_in_cb s2 4 [4]).1.regs 10 = s2.regs 10 - movedIn s2 4 [4] ∧
    (ac97_in_cb s2 4 [4]).1.regs 9 = (s2.regs 9 + movedIn s2 4 [4]) % 2 ^ 32 ∧
    (ac97_in_cb s2 4 [4]).2 = [] :=
  (C10_transfer_ignores_enable s2 4 [4] (by decide) (by decide) (by decide)
    (by decide) (by decide) (by decide)).1

end MilkymistAC97
